import Mathlib

/-!
Verification of the multi-account request dispatcher of gemini-oauth-mcp.

Shallow embedding of the TypeScript sources:
  - src/utils/errors.ts        (error class hierarchy)
  - src/accounts/rotator.ts    (AccountRotatorImpl)
  - src/auth/token.ts          (TokenManagerImpl)
  - src/accounts/quota.ts      (QuotaTrackerImpl)
  - src/api/transform.ts       (transformFromAntigravity)
  - src/api/client.ts          (GeminiClientImpl: callStandardApi, callAntigravityApi,
                                extractStandardResponseText, parseAntigravitySSEResponse,
                                getBackoffDelay)

Conventions of the embedding:
  - JavaScript Map objects are modelled as insertion-ordered association lists
    with unique keys (mapGet / mapSet / mapDelete below).
  - Date.now() is passed explicitly as a parameter `now : Nat` (milliseconds).
    A single dispatcher call is modelled at one fixed instant.
  - Upstream effects (fetch, the token endpoint, JSON.parse of SSE payloads)
    are environment inputs: each loop iteration consumes one element of an
    input trace describing what the environment answered.
  - Thrown JS errors become values of the inductive type JsError; the
    instanceof checks of the catch blocks become matches on its constructors.
    AuthenticationError, RateLimitError and ApiError are sibling subclasses of
    GeminiOAuthError, so an AuthenticationError is matched by neither
    instanceof RateLimitError nor instanceof ApiError.
-/

namespace GeminiOauthMcp

/-- Error hierarchy of src/utils/errors.ts. AllAccountsRateLimitedError
extends RateLimitError and carries retryAfterMs; the other constructors carry
the message only, which is all the dispatcher claims inspect. -/
inductive JsError where
  | rateLimitErr (msg : String) (retryAfterMs : Nat)
  | apiErr (msg : String)
  | authErr (msg : String)
  | plainErr (msg : String)
deriving Repr, DecidableEq

/-- The message field of an Error, read by the dispatcher when wrapping the
last failure. -/
def JsError.message : JsError → String
  | .rateLimitErr m _ => m
  | .apiErr m => m
  | .authErr m => m
  | .plainErr m => m

/-- Result of instanceof RateLimitError or instanceof ApiError, the two
rethrow conditions of the dispatcher catch blocks. AuthenticationError and
plain errors match neither class. -/
def JsError.isRateLimitOrApi : JsError → Bool
  | .rateLimitErr _ _ => true
  | .apiErr _ => true
  | .authErr _ => false
  | .plainErr _ => false

/-- Account record as seen by the rotator, token manager and dispatcher
(src/auth/storage.ts Account, restricted to the fields those components
read). -/
structure Account where
  id : String
  email : String
  refreshToken : String
  accessToken : Option String
  accessTokenExpiry : Option Nat
  projectId : Option String
deriving Repr, DecidableEq, Inhabited

/-- Map.get of a JS Map modelled as an association list. -/
def mapGet {α : Type} (m : List (String × α)) (k : String) : Option α :=
  (m.find? (fun e => e.1 == k)).map (fun e => e.2)

/-- Map.set of a JS Map: replace in place when the key exists, append
otherwise (JS Maps keep insertion order). -/
def mapSet {α : Type} (m : List (String × α)) (k : String) (v : α) :
    List (String × α) :=
  if (m.find? (fun e => e.1 == k)).isSome then
    m.map (fun e => if e.1 == k then (k, v) else e)
  else
    m ++ [(k, v)]

/-- Map.delete of a JS Map. -/
def mapDelete {α : Type} (m : List (String × α)) (k : String) :
    List (String × α) :=
  m.filter (fun e => !(e.1 == k))

/-! ## Rate-Limit Rotator (src/accounts/rotator.ts, AccountRotatorImpl)

The rotator holds the directory view manager.getAccounts() (here the field
accounts), the rateLimits Map from account id to the absolute availableAt
instant, and the rotation cursor currentIndex. The call
manager.updateAccountStatus made by markRateLimited is display-only state of
the Account Directory and is wrapped in try/catch in the source, so it has no
effect observable by any claim; it is absorbed here. -/

structure RotatorState where
  accounts : List Account
  rateLimits : List (String × Nat)
  currentIndex : Nat
deriving Repr, DecidableEq

/-- One step of the getAvailableAccounts filter: keep the account when it has
no rateLimits entry, auto-clear the entry and keep the account when the entry
expired (now >= availableAt), drop the account otherwise. The fold carries
the mutated rateLimits map. -/
def availableStep (now : Nat) (acc : List Account × List (String × Nat))
    (a : Account) : List Account × List (String × Nat) :=
  match mapGet acc.2 a.id with
  | none => (acc.1 ++ [a], acc.2)
  | some availableAt =>
      if now ≥ availableAt then
        (acc.1 ++ [a], mapDelete acc.2 a.id)
      else
        (acc.1, acc.2)

/-- getAvailableAccounts: filter the directory list, auto-clearing expired
rate-limit marks as a side effect. Returns the available accounts and the
updated rateLimits map. -/
def getAvailableAccounts (s : RotatorState) (now : Nat) :
    List Account × List (String × Nat) :=
  s.accounts.foldl (availableStep now) ([], s.rateLimits)

/-- Minimum of a list of naturals, none for the empty list (the fold of
getEarliestRetryTime starting from Infinity). -/
def minList : List Nat → Option Nat
  | [] => none
  | x :: xs =>
      match minList xs with
      | none => some x
      | some m => some (min x m)

/-- getEarliestRetryTime: minimum availableAt over every rateLimits entry,
minus now (clamped at 0 by Nat subtraction, matching Math.max(0, ...)); 0
when the map is empty. -/
def getEarliestRetryTime (rateLimits : List (String × Nat)) (now : Nat) : Nat :=
  match minList (rateLimits.map (fun e => e.2)) with
  | none => 0
  | some earliest => earliest - now

/-- The round-robin scan of getNextAccount: at most `attempts` further steps;
each step reads allAccounts[currentIndex % len], advances the cursor, and
returns the account when its id is in the available set. Returns the chosen
account and the new cursor, or none with the final cursor when the scan is
exhausted. -/
def scanRoundRobin (allAccounts : List Account) (availableIds : List String)
    (currentIndex : Nat) : Nat → Option (Account × Nat) × Nat
  | 0 => (none, currentIndex)
  | attempts + 1 =>
      match allAccounts[currentIndex % allAccounts.length]? with
      | some account =>
          if availableIds.contains account.id then
            (some (account, (currentIndex + 1) % allAccounts.length),
              (currentIndex + 1) % allAccounts.length)
          else
            scanRoundRobin allAccounts availableIds
              ((currentIndex + 1) % allAccounts.length) attempts
      | none =>
          scanRoundRobin allAccounts availableIds
            ((currentIndex + 1) % allAccounts.length) attempts

/-- getNextAccount. Computes the available set (auto-clearing expired marks),
throws AllAccountsRateLimitedError with the earliest retry hint when it is
empty, and otherwise scans at most len(accounts) steps from the cursor for
the first available account (with the defensive fallback to available[0] of
the source). -/
def getNextAccount (s : RotatorState) (now : Nat) :
    Except JsError Account × RotatorState :=
  match getAvailableAccounts s now with
  | (available, rateLimits2) =>
      if available.isEmpty then
        (.error (.rateLimitErr "All accounts are currently rate limited"
            (getEarliestRetryTime rateLimits2 now)),
          { s with rateLimits := rateLimits2 })
      else
        match scanRoundRobin s.accounts (available.map (fun a => a.id))
            s.currentIndex s.accounts.length with
        | (some (account, nextIndex), _) =>
            (.ok account,
              { s with rateLimits := rateLimits2, currentIndex := nextIndex })
        | (none, finalIndex) =>
            (.ok available.head!,
              { s with rateLimits := rateLimits2, currentIndex := finalIndex })

/-- markRateLimited: record availableAt = now + retryAfterMs in the
rateLimits map (the directory status update of the source is display-only
and caught on failure, hence not modelled). -/
def markRateLimited (s : RotatorState) (accountId : String)
    (retryAfterMs : Nat) (now : Nat) : RotatorState :=
  { s with rateLimits := mapSet s.rateLimits accountId (now + retryAfterMs) }

/-! ## Token Manager (src/auth/token.ts, TokenManagerImpl) -/

/-- Token expiry buffer: 5 minutes in milliseconds. -/
def TOKEN_EXPIRY_BUFFER_MS : Nat := 5 * 60 * 1000

/-- isExpired: a token is treated as expired when
Date.now() + TOKEN_EXPIRY_BUFFER_MS >= expiresAt. -/
def isExpired (now expiresAt : Nat) : Bool :=
  now + TOKEN_EXPIRY_BUFFER_MS ≥ expiresAt

/-- Entry of the in-memory tokenCache map. -/
structure TokenCacheEntry where
  accessToken : String
  expiresAt : Nat
deriving Repr, DecidableEq

/-- Outcome of the synchronous routing logic of getAccessToken: serve from
the in-memory cache, serve from the stored account record, fall through to
refreshToken, or throw AuthenticationError for an unknown account. -/
inductive GetTokenPath where
  | cached (token : String)
  | stored (token : String)
  | refresh
  | accountNotFound
deriving Repr, DecidableEq

/-- getAccessToken routing: (1) unexpired in-memory cache entry, (2) account
missing throws, (3) unexpired stored token (truthiness: the empty string and
the numeric expiry 0 are falsy in JS, so they fail the stored-token check),
(4) otherwise refresh. -/
def getAccessTokenPath (cache : Option TokenCacheEntry)
    (account : Option Account) (now : Nat) : GetTokenPath :=
  match cache with
  | some entry =>
      if !(isExpired now entry.expiresAt) then .cached entry.accessToken
      else getAccessTokenStorePath account now
  | none => getAccessTokenStorePath account now
where
  getAccessTokenStorePath (account : Option Account) (now : Nat) :
      GetTokenPath :=
    match account with
    | none => .accountNotFound
    | some acct =>
        match acct.accessToken, acct.accessTokenExpiry with
        | some token, some expiry =>
            if token ≠ "" ∧ expiry ≠ 0 ∧ !(isExpired now expiry) then
              .stored token
            else .refresh
        | _, _ => .refresh

/-- State of the single-flight machinery of refreshToken: the
refreshPromises map from account id to the handle of the in-flight refresh,
a supply of fresh handles, and the log of upstream refresh calls actually
started (one entry per doRefresh invocation, in order). -/
structure FlightState where
  refreshPromises : List (String × Nat)
  nextFlight : Nat
  started : List (Nat × String)
deriving Repr, DecidableEq

/-- The entry of refreshToken, lines 451-461 of src/auth/token.ts. This
check-and-set is synchronous JS code with no await between the map lookup
and the map insertion, hence atomic under the run-to-completion semantics of
the event loop; it is therefore modelled as one atomic step. A caller either
attaches to the existing in-flight promise or starts doRefresh (recorded in
started) and registers its promise. -/
def refreshTokenEnter (s : FlightState) (accountId : String) :
    FlightState × Nat :=
  match mapGet s.refreshPromises accountId with
  | some flight => (s, flight)
  | none =>
      let flight := s.nextFlight
      ({ refreshPromises := mapSet s.refreshPromises accountId flight,
         nextFlight := flight + 1,
         started := s.started ++ [(flight, accountId)] }, flight)

/-- The finally block of refreshToken: the map entry is removed once the
flight settles, whatever its outcome. -/
def refreshTokenSettle (s : FlightState) (accountId : String) : FlightState :=
  { s with refreshPromises := mapDelete s.refreshPromises accountId }

/-! ## Quota Tracker (src/accounts/quota.ts, QuotaTrackerImpl)

Numbers are modelled as rationals: every value the claims exercise is exact
in IEEE doubles, and the formulas used/limit*100 and used >= limit carry over
verbatim. -/

structure QuotaData where
  used : ℚ
  limit : ℚ
  resetAt : Option Nat
deriving Repr, DecidableEq

structure QuotaInfo where
  accountId : String
  email : String
  used : ℚ
  limit : ℚ
  percentage : ℚ
  resetAt : Option Nat
  isLimited : Bool
deriving Repr, DecidableEq

/-- calculatePercentage: used/limit*100, and 100 when limit is 0. -/
def calculatePercentage (used limit : ℚ) : ℚ :=
  if limit = 0 then 100 else used / limit * 100

/-- The isLimited derivation: used >= limit. -/
def quotaLimited (used limit : ℚ) : Bool :=
  used ≥ limit

/-- buildQuotaInfo. -/
def buildQuotaInfo (accountId email : String) (data : QuotaData) : QuotaInfo :=
  { accountId := accountId
    email := email
    used := data.used
    limit := data.limit
    percentage := calculatePercentage data.used data.limit
    resetAt := data.resetAt
    isLimited := quotaLimited data.used data.limit }

/-- The quotas map of QuotaTrackerImpl. -/
structure QuotaState where
  quotas : List (String × QuotaData)
deriving Repr, DecidableEq

/-- updateQuota: a no-op when the account manager does not know the account,
a full overwrite of the stored triple otherwise. -/
def updateQuota (directory : List Account) (s : QuotaState) (accountId : String)
    (used limit : ℚ) (resetAt : Option Nat) : QuotaState :=
  match directory.find? (fun a => a.id == accountId) with
  | none => s
  | some _ =>
      { quotas := mapSet s.quotas accountId
          { used := used, limit := limit, resetAt := resetAt } }

/-- getQuota: null for an unknown account or an account without quota data,
the derived QuotaInfo otherwise. -/
def getQuota (directory : List Account) (s : QuotaState) (accountId : String) :
    Option QuotaInfo :=
  match directory.find? (fun a => a.id == accountId) with
  | none => none
  | some account =>
      match mapGet s.quotas accountId with
      | none => none
      | some data => some (buildQuotaInfo accountId account.email data)

/-- incrementUsage: a no-op without an existing quota record, otherwise
used += 1 in place. -/
def incrementUsage (s : QuotaState) (accountId : String) : QuotaState :=
  match mapGet s.quotas accountId with
  | none => s
  | some data =>
      { quotas := mapSet s.quotas accountId { data with used := data.used + 1 } }

/-! ## Response shapes (src/api/client.ts and src/api/transform.ts)

The TS interfaces mark every level optional; the Option structure mirrors
that exactly. -/

structure ResponsePart where
  text : Option String
deriving Repr, DecidableEq

structure ResponseContent where
  parts : Option (List ResponsePart)
deriving Repr, DecidableEq

structure ResponseCandidate where
  content : Option ResponseContent
deriving Repr, DecidableEq

/-- GeminiResponse: candidates plus data.error?.message, as read by the
error branch of the dispatcher. -/
structure GeminiResponseData where
  candidates : Option (List ResponseCandidate)
  errorMessage : Option String
deriving Repr, DecidableEq

/-- extractStandardResponseText: throws on missing or empty candidates,
missing or empty parts of the first candidate, and a missing or empty (falsy)
text of the FIRST part; otherwise returns that first part text. -/
def extractStandardResponseText (data : GeminiResponseData) :
    Except JsError String :=
  match data.candidates with
  | none => .error (.apiErr "Empty response: no candidates")
  | some candidates =>
      match candidates with
      | [] => .error (.apiErr "Empty response: no candidates")
      | firstCandidate :: _ =>
          match firstCandidate.content with
          | none => .error (.apiErr "Empty response: no content parts")
          | some content =>
              match content.parts with
              | none => .error (.apiErr "Empty response: no content parts")
              | some [] => .error (.apiErr "Empty response: no content parts")
              | some (firstPart :: _) =>
                  match firstPart.text with
                  | none => .error (.apiErr "Empty response: no text content")
                  | some text =>
                      if text = "" then
                        .error (.apiErr "Empty response: no text content")
                      else .ok text

/-- The part texts that are defined and non-empty (the truthiness filter
part.text !== undefined && part.text !== "" shared by the transform and the
SSE parser). -/
def truthyTexts (parts : List ResponsePart) : List String :=
  parts.filterMap (fun p =>
    match p.text with
    | some t => if t ≠ "" then some t else none
    | none => none)

/-- transformFromAntigravity (src/api/transform.ts): same emptiness checks,
but collects EVERY part text that is defined and non-empty and joins them. -/
def transformFromAntigravity (candidates : Option (List ResponseCandidate)) :
    Except JsError String :=
  match candidates with
  | none => .error (.apiErr "Empty response: no candidates")
  | some [] => .error (.apiErr "Empty response: no candidates")
  | some (firstCandidate :: _) =>
      match firstCandidate.content with
      | none => .error (.apiErr "Empty response: no content parts")
      | some content =>
          match content.parts with
          | none => .error (.apiErr "Empty response: no content parts")
          | some [] => .error (.apiErr "Empty response: no content parts")
          | some parts =>
              let textParts := truthyTexts parts
              if textParts.isEmpty then
                .error (.apiErr "Empty response: no text content")
              else .ok (String.join textParts)

/-! ## Dispatcher (src/api/client.ts, GeminiClientImpl) -/

/-- MAX_RETRIES. -/
def MAX_RETRIES : Nat := 3

/-- DEFAULT_RATE_LIMIT_MS. -/
def DEFAULT_RATE_LIMIT_MS : Nat := 60000

/-- BASE_RETRY_DELAY_MS. -/
def BASE_RETRY_DELAY_MS : Nat := 1000

/-- The three candidate base URLs of the extended (Antigravity) family, in
their fixed order. -/
def ANTIGRAVITY_API_BASE_URLS : List String :=
  [ "https://daily-cloudcode-pa.googleapis.com",
    "https://cloudcode-pa.googleapis.com",
    "https://daily-cloudcode-pa.sandbox.googleapis.com" ]

/-- isAntigravityModel: model ids starting with gemini-3 or claude- use the
extended family. -/
def isAntigravityModel (model : String) : Bool :=
  model.startsWith "gemini-3" || model.startsWith "claude-"

/-- getBackoffDelay: BASE_RETRY_DELAY_MS * 2 ^ (attempt - 1). -/
def getBackoffDelay (attempt : Nat) : Nat :=
  BASE_RETRY_DELAY_MS * 2 ^ (attempt - 1)

/-- What tokenManager.getAccessToken did for this iteration: resolved with a
token, or rejected (with an AuthenticationError from the refresh path, or a
raw storage error). -/
inductive TokenOutcome where
  | ok (token : String)
  | fail (e : JsError)
deriving Repr, DecidableEq

/-- What one fetch of the standard endpoint did: rejected with a network
error, or returned an HTTP response with a status, an optional parsed
Retry-After header value (in seconds), and a parsed JSON body. -/
inductive FetchOutcome where
  | netErr (msg : String)
  | http (status : Nat) (retryAfter : Option Nat) (body : GeminiResponseData)
deriving Repr, DecidableEq

/-- Environment input for one iteration of the standard dispatch loop. -/
structure StdIter where
  token : TokenOutcome
  fetch : FetchOutcome
deriving Repr, DecidableEq

/-- Shared dispatcher state: the rotator and the quota tracker. -/
structure DispatchState where
  rotator : RotatorState
  quota : QuotaState
deriving Repr, DecidableEq

/-- Result of a dispatch loop: the returned text, the raised error, or the
input trace ran out before the loop finished (used to express
non-termination: the loop is still running after consuming the whole
trace). -/
inductive DispatchResult where
  | success (text : String)
  | failure (e : JsError)
  | outOfTrace
deriving Repr, DecidableEq

/-- response.ok of the Fetch API: status in 200..299. -/
def httpOk (status : Nat) : Bool :=
  200 ≤ status ∧ status ≤ 299

/-- Head of each while-loop iteration of callStandardApi: the loop condition
networkRetryCount <= MAX_RETRIES (its failure raises the wrapping ApiError)
followed by rotator.getNextAccount, whose AllAccountsRateLimitedError is
thrown outside the try block and so propagates directly. -/
def stdLoopHead (now : Nat) (st : DispatchState) (retryCount : Nat)
    (lastError : Option String) (delays : List Nat) :
    Except (DispatchResult × DispatchState × List Nat)
      (Account × DispatchState) :=
  if retryCount > MAX_RETRIES then
    .error (.failure (.apiErr
        ("Request failed after " ++ toString MAX_RETRIES ++ " retries: "
          ++ lastError.getD "Unknown error")), st, delays)
  else
    match getNextAccount st.rotator now with
    | (.error e, rot) => .error (.failure e, { st with rotator := rot }, delays)
    | (.ok account, rot) => .ok (account, { st with rotator := rot })

/-- callStandardApi of GeminiClientImpl. One loop iteration consumes one
StdIter of the trace (every iteration performs exactly one getAccessToken
and, if that resolves, one fetch). Returns the result, the final shared
state, and the list of delays requested from delayFn in order. -/
def callStandardApiLoop (now : Nat) (st : DispatchState) (retryCount : Nat)
    (lastError : Option String) (delays : List Nat) :
    List StdIter → DispatchResult × DispatchState × List Nat
  | [] =>
      match stdLoopHead now st retryCount lastError delays with
      | .error result => result
      | .ok (_, st) => (.outOfTrace, st, delays)
  | iter :: rest =>
      match stdLoopHead now st retryCount lastError delays with
      | .error result => result
      | .ok (account, st) =>
              match iter.token with
              | .fail e =>
                  if e.isRateLimitOrApi then (.failure e, st, delays)
                  else
                    let retryCount := retryCount + 1
                    let delays :=
                      if retryCount ≤ MAX_RETRIES then
                        delays ++ [getBackoffDelay retryCount]
                      else delays
                    callStandardApiLoop now st retryCount (some e.message)
                      delays rest
              | .ok _ =>
                  match iter.fetch with
                  | .netErr msg =>
                      let retryCount := retryCount + 1
                      let delays :=
                        if retryCount ≤ MAX_RETRIES then
                          delays ++ [getBackoffDelay retryCount]
                        else delays
                      callStandardApiLoop now st retryCount (some msg) delays
                        rest
                  | .http status retryAfter body =>
                      if status = 429 then
                        let retryAfterMs :=
                          match retryAfter with
                          | some seconds => seconds * 1000
                          | none => DEFAULT_RATE_LIMIT_MS
                        let rot2 :=
                          markRateLimited st.rotator account.id retryAfterMs now
                        let st := { st with rotator := rot2 }
                        callStandardApiLoop now st retryCount lastError delays
                          rest
                      else if !(httpOk status) then
                        let errorMessage :=
                          body.errorMessage.getD ("HTTP " ++ toString status)
                        if status ≥ 500 then
                          let retryCount := retryCount + 1
                          if retryCount ≤ MAX_RETRIES then
                            callStandardApiLoop now st retryCount
                              (some ("Server error: " ++ errorMessage))
                              (delays ++ [getBackoffDelay retryCount]) rest
                          else
                            (.failure (.apiErr ("API error: " ++ errorMessage)),
                              st, delays)
                        else
                          (.failure (.apiErr ("API error: " ++ errorMessage)),
                            st, delays)
                      else
                        match extractStandardResponseText body with
                        | .error e => (.failure e, st, delays)
                        | .ok text =>
                            (.success text,
                              { st with quota :=
                                  incrementUsage st.quota account.id }, delays)

/-! ## Extended (Antigravity) family -/

/-- Parsed shape of one SSE data payload: data.response?.candidates. -/
structure SSEResponse where
  candidates : Option (List ResponseCandidate)
deriving Repr, DecidableEq

structure SSEData where
  response : Option SSEResponse
deriving Repr, DecidableEq

/-- Whitespace test of the JS string trim (space, tab, line feed, carriage
return cover every character occurring in SSE bodies). -/
def jsIsSpace (c : Char) : Bool :=
  c.toNat = 32 || c.toNat = 9 || c.toNat = 10 || c.toNat = 13

/-- JS String.prototype.trim, modelled on the character list (the kernel
does not reduce the built-in String.trim, so the embedding carries its own
executable model). -/
def jsTrim (s : String) : String :=
  String.mk (((s.data.dropWhile jsIsSpace).reverse.dropWhile jsIsSpace).reverse)

/-- JS String.prototype.startsWith. -/
def jsStartsWith (s pre : String) : Bool :=
  s.data.take pre.data.length == pre.data

/-- JS String.prototype.slice with a non-negative start index. -/
def jsDrop (s : String) (n : Nat) : String :=
  String.mk (s.data.drop n)

/-- Text contribution of one SSE line of parseAntigravitySSEResponse: skip
lines not starting with data:, empty payloads and the [DONE] marker, lines
whose JSON does not parse (the parseJson oracle models JSON.parse, returning
none on a parse error), and payloads without candidates or parts; otherwise
append every truthy part text of the first candidate. -/
def sseLineText (parseJson : String → Option SSEData) (line : String) :
    String :=
  let trimmedLine := jsTrim line
  if !(jsStartsWith trimmedLine "data:") then ""
  else
    let jsonStr := jsTrim (jsDrop trimmedLine 5)
    if jsonStr = "" then ""
    else if jsonStr = "[DONE]" then ""
    else
      match parseJson jsonStr with
      | none => ""
      | some data =>
          match data.response with
          | none => ""
          | some resp =>
              match resp.candidates with
              | none => ""
              | some [] => ""
              | some (firstCandidate :: _) =>
                  match firstCandidate.content with
                  | none => ""
                  | some content =>
                      match content.parts with
                      | none => ""
                      | some parts => String.join (truthyTexts parts)

/-- parseAntigravitySSEResponse over the response body already split at
newlines: concatenate the text fragments of the events in arrival order. -/
def parseAntigravitySSEResponse (parseJson : String → Option SSEData)
    (bodyLines : List String) : String :=
  String.join (bodyLines.map (sseLineText parseJson))

/-- What one fetch of one extended-family candidate URL did: a network
error, or an HTTP response carrying a status, the optional Retry-After
seconds, the error body text (read by the non-retryable branch) and the SSE
body lines (read by the success branch). -/
inductive EndpointOutcome where
  | netErr (msg : String)
  | http (status : Nat) (retryAfter : Option Nat) (errorText : String)
      (bodyLines : List String)
deriving Repr, DecidableEq

/-- Result of the inner for-loop over the candidate base URLs: an early
return with the parsed text, a raised ApiError (propagating out of the whole
call), or loop completion carrying the final rateLimitedEndpointCount and
lastRateLimitRetryMs. -/
inductive EndpointLoopResult where
  | returned (text : String)
  | raised (e : JsError)
  | exhausted (count429 : Nat) (lastMs : Nat)
deriving Repr, DecidableEq

/-- The inner for-loop of callAntigravityApi over the candidate URLs, one
EndpointOutcome per URL, in order. 429 tallies the counter and maxes the
retry time without marking; 404 and 5xx skip to the next URL; any other
non-ok status raises ApiError; an ok response returns the parsed SSE text
when non-empty and raises the empty-response ApiError otherwise; a network
error is swallowed by the per-endpoint catch. -/
def antigravityEndpointLoop (parseJson : String → Option SSEData) :
    Nat → Nat → List EndpointOutcome → EndpointLoopResult
  | count429, lastMs, [] => .exhausted count429 lastMs
  | count429, lastMs, outcome :: rest =>
      match outcome with
      | .netErr _ => antigravityEndpointLoop parseJson count429 lastMs rest
      | .http status retryAfter errorText bodyLines =>
          if status = 429 then
            let retryAfterMs :=
              match retryAfter with
              | some seconds => seconds * 1000
              | none => DEFAULT_RATE_LIMIT_MS
            antigravityEndpointLoop parseJson (count429 + 1)
              (max lastMs retryAfterMs) rest
          else if status = 404 || status ≥ 500 then
            antigravityEndpointLoop parseJson count429 lastMs rest
          else if !(httpOk status) then
            .raised (.apiErr ("Antigravity API error: " ++ errorText.take 500))
          else
            let text := parseAntigravitySSEResponse parseJson bodyLines
            if text ≠ "" then .returned text
            else .raised (.apiErr "Empty response from Antigravity API")

/-- Environment input for one full attempt of the extended dispatch loop
(consumed only when the selected account has a projectId). -/
structure AntiIter where
  token : TokenOutcome
  endpoints : List EndpointOutcome
deriving Repr, DecidableEq

/-- One while-loop iteration of callAntigravityApi; recur continues the
loop with the remaining fuel. An iteration that skips an account without a
projectId recurs on the SAME trace (no token call, no fetch, no retry-count
change). After an attempt whose endpoints all failed, the account is marked
rate limited when and only when every candidate URL returned 429, and one
retry unit is consumed. -/
def antigravityIteration (parseJson : String → Option SSEData) (now : Nat)
    (recur : DispatchState → Nat → Option String → List Nat → List AntiIter →
      DispatchResult × DispatchState × List Nat)
    (st : DispatchState) (retryCount : Nat) (lastError : Option String)
    (delays : List Nat) (trace : List AntiIter) :
    DispatchResult × DispatchState × List Nat :=
  if retryCount > MAX_RETRIES then
    (.failure (.apiErr
        ("Antigravity request failed after " ++ toString MAX_RETRIES
          ++ " retries: " ++ lastError.getD "Unknown error")), st, delays)
  else
    match getNextAccount st.rotator now with
    | (.error e, rot) => (.failure e, { st with rotator := rot }, delays)
    | (.ok account, rot) =>
        let st := { st with rotator := rot }
        match account.projectId with
        | none => recur st retryCount lastError delays trace
        | some _ =>
            match trace with
            | [] => (.outOfTrace, st, delays)
            | iter :: rest =>
                match iter.token with
                | .fail e =>
                    if e.isRateLimitOrApi then (.failure e, st, delays)
                    else
                      let retryCount := retryCount + 1
                      let delays :=
                        if retryCount ≤ MAX_RETRIES then
                          delays ++ [getBackoffDelay retryCount]
                        else delays
                      recur st retryCount (some e.message) delays rest
                | .ok _ =>
                    match antigravityEndpointLoop parseJson 0
                        DEFAULT_RATE_LIMIT_MS iter.endpoints with
                    | .returned text =>
                        (.success text,
                          { st with quota :=
                              incrementUsage st.quota account.id }, delays)
                    | .raised e => (.failure e, st, delays)
                    | .exhausted count429 lastMs =>
                        let rot2 :=
                          markRateLimited st.rotator account.id lastMs now
                        let st :=
                          if count429 = ANTIGRAVITY_API_BASE_URLS.length then
                            { st with rotator := rot2 }
                          else st
                        let retryCount := retryCount + 1
                        let delays :=
                          if retryCount ≤ MAX_RETRIES then
                            delays ++ [getBackoffDelay retryCount]
                          else delays
                        recur st retryCount
                          (some "All Antigravity endpoints failed") delays
                          rest

/-- callAntigravityApi of GeminiClientImpl, fuel-indexed: fuel bounds the
number of while-loop iterations simulated (an iteration that skips an
account without a projectId consumes fuel but no trace element, which is
exactly why the loop can run forever). -/
def callAntigravityApiLoop (parseJson : String → Option SSEData) (now : Nat) :
    Nat → DispatchState → Nat → Option String → List Nat → List AntiIter →
    DispatchResult × DispatchState × List Nat
  | 0, st, _, _, delays, _ => (.outOfTrace, st, delays)
  | fuel + 1, st, retryCount, lastError, delays, trace =>
      antigravityIteration parseJson now
        (callAntigravityApiLoop parseJson now fuel) st retryCount lastError
        delays trace

/-! ## Fixtures for concrete dispatch scenarios -/

/-- A minimal account record. -/
def mkAccount (id : String) (projectId : Option String) : Account :=
  { id := id, email := id ++ "@example.com", refreshToken := "rt-" ++ id,
    accessToken := none, accessTokenExpiry := none, projectId := projectId }

/-- Dispatcher state with a single standard account and no rate limits. -/
def stdState1 : DispatchState :=
  { rotator :=
      { accounts := [mkAccount "a1" none]
        rateLimits := []
        currentIndex := 0 }
    quota := { quotas := [] } }

/-- Dispatcher state with two standard accounts and no rate limits. -/
def stdState2 : DispatchState :=
  { rotator :=
      { accounts := [mkAccount "a1" none, mkAccount "a2" none]
        rateLimits := []
        currentIndex := 0 }
    quota := { quotas := [] } }

/-- Dispatcher state with a single extended-mode account that has a
projectId. -/
def antiState1 : DispatchState :=
  { rotator :=
      { accounts := [mkAccount "b1" (some "proj")]
        rateLimits := []
        currentIndex := 0 }
    quota := { quotas := [] } }

/-- stdState2 after its first account was marked rate limited at instant 7
for 60000 ms. -/
def marked2State : DispatchState :=
  { rotator :=
      { accounts := [mkAccount "a1" none, mkAccount "a2" none]
        rateLimits := [("a1", 60007)]
        currentIndex := 0 }
    quota := { quotas := [] } }

/-- antiState1 after its account was marked rate limited for ms milliseconds
at instant now. -/
def antiMarkedState (now ms : Nat) : DispatchState :=
  { rotator :=
      { accounts := [mkAccount "b1" (some "proj")]
        rateLimits := [("b1", now + ms)]
        currentIndex := 0 }
    quota := { quotas := [] } }

/-- A JSON.parse oracle for SSE payloads: the payload X parses to one
candidate with the single part text ok; everything else fails to parse. -/
def sseOracleX : String → Option SSEData := fun s =>
  if s = "X" then
    some
      { response :=
          some
            { candidates :=
                some
                  [{ content :=
                      some { parts := some [{ text := some "ok" }] } }] } }
  else none

/-- Iteration input whose fetch fails with a network error. -/
def iterNet (m : String) : StdIter :=
  { token := .ok "tok", fetch := .netErr m }

/-- Iteration input whose fetch returns a 5xx with the given error message
in the body. -/
def iter5xx (m : String) : StdIter :=
  { token := .ok "tok",
    fetch := .http 500 none { candidates := none, errorMessage := some m } }

/-- Iteration input whose fetch returns 429 with the given Retry-After
header. -/
def iter429 (retryAfter : Option Nat) : StdIter :=
  { token := .ok "tok",
    fetch := .http 429 retryAfter { candidates := none, errorMessage := none } }

/-- A successful response body with the single text. -/
def okBody (text : String) : GeminiResponseData :=
  { candidates :=
      some [{ content := some { parts := some [{ text := some text }] } }],
    errorMessage := none }

/-- Iteration input whose fetch succeeds with a one-part body. -/
def iterOk (text : String) : StdIter :=
  { token := .ok "tok", fetch := .http 200 none (okBody text) }

/-- Iteration input whose getAccessToken rejects with an
AuthenticationError. -/
def iterAuthFail (m : String) : StdIter :=
  { token := .fail (.authErr m), fetch := .netErr "unreached" }

/-- Extended-family endpoint outcome: 429 with the given Retry-After. -/
def ep429 (retryAfter : Option Nat) : EndpointOutcome :=
  .http 429 retryAfter "" []

/-- Extended-family endpoint outcome: 200 whose SSE body holds the payload
X (text ok under sseOracleX). -/
def epOkX : EndpointOutcome :=
  .http 200 none "" ["data: X"]

/-- Whether an endpoint outcome is an HTTP 429 response. -/
def is429 : EndpointOutcome → Bool
  | .http status _ _ _ => status == 429
  | .netErr _ => false

/-- A response body whose first candidate carries two non-empty text
parts. -/
def twoPartBody : GeminiResponseData :=
  { candidates :=
      some
        [{ content :=
            some
              { parts :=
                  some [{ text := some "a" }, { text := some "b" }] } }]
    errorMessage := none }

/-- Body whose first candidate has the first part text t1 followed by
restParts, with further candidates restCands. -/
def firstPartBody (t1 : String) (restParts : List ResponsePart)
    (restCands : List ResponseCandidate) (em : Option String) :
    GeminiResponseData :=
  { candidates :=
      some ({ content := some { parts := some ({ text := some t1 } :: restParts) } } :: restCands)
    errorMessage := em }

/-- Candidate list whose first candidate has the given parts. -/
def candsWithParts (parts : List ResponsePart)
    (restCands : List ResponseCandidate) : Option (List ResponseCandidate) :=
  some ({ content := some { parts := some parts } } :: restCands)

/-- One-account dispatcher state with an existing quota record for a1. -/
def quotaState1 : DispatchState :=
  { rotator :=
      { accounts := [mkAccount "a1" none]
        rateLimits := []
        currentIndex := 0 }
    quota := { quotas := [("a1", { used := 5, limit := 10, resetAt := none })] } }

/-- quotaState1 after one incrementUsage on a1 (used grows from 5 to
5 + 1 = 6). -/
def quotaIncState1 : DispatchState :=
  { rotator :=
      { accounts := [mkAccount "a1" none]
        rateLimits := []
        currentIndex := 0 }
    quota :=
      { quotas := [("a1", { used := 5 + 1, limit := 10, resetAt := none })] } }

/-- An account carrying the given stored access token and expiry. -/
def withToken (acct : Account) (tok : String) (expiry : Nat) : Account :=
  { acct with accessToken := some tok, accessTokenExpiry := some expiry }

/-- One-account directory for the quota theorems. -/
def dir1 : List Account := [mkAccount "a1" none]

/-- Empty quota tracker state. -/
def quota0 : QuotaState := { quotas := [] }

/-- One-account dispatcher state whose only account was just marked rate
limited for ms milliseconds at instant now. -/
def markedState (now ms : Nat) : DispatchState :=
  { rotator :=
      { accounts := [mkAccount "a1" none]
        rateLimits := [("a1", now + ms)]
        currentIndex := 0 }
    quota := { quotas := [] } }

/-- Iterated getNextAccount: the outputs of n consecutive calls, in order,
with the final rotator state. -/
def getNextSeq (s : RotatorState) (now : Nat) :
    Nat → List (Except JsError Account) × RotatorState
  | 0 => ([], s)
  | n + 1 =>
      let r := getNextAccount s now
      let rest := getNextSeq r.2 now n
      (r.1 :: rest.1, rest.2)

/-! ## Helper lemmas about the JS Map model -/

theorem mapGet_cons_pos {α : Type} (a : String × α) (m : List (String × α))
    (k : String) (h : (a.1 == k) = true) : mapGet (a :: m) k = some a.2 := by
  unfold mapGet
  rw [List.find?_cons_of_pos (p := fun e => e.1 == k) m h]
  rfl

theorem mapGet_cons_neg {α : Type} (a : String × α) (m : List (String × α))
    (k : String) (h : (a.1 == k) = false) : mapGet (a :: m) k = mapGet m k := by
  unfold mapGet
  rw [List.find?_cons_of_neg (p := fun e => e.1 == k) m (by simp [h])]

theorem mapGet_append_single {α : Type} (m : List (String × α)) (k : String)
    (v : α) (h : mapGet m k = none) : mapGet (m ++ [(k, v)]) k = some v := by
  induction m with
  | nil =>
      have : ((k, v).1 == k) = true := by simp
      simpa using mapGet_cons_pos (k, v) [] k this
  | cons a as ih =>
      cases hb : (a.1 == k) with
      | true =>
          rw [mapGet_cons_pos a as k hb] at h
          exact absurd h (by simp)
      | false =>
          rw [List.cons_append, mapGet_cons_neg _ _ _ hb]
          rw [mapGet_cons_neg _ _ _ hb] at h
          exact ih h

theorem mapGet_append_single_ne {α : Type} (m : List (String × α))
    (k k2 : String) (v : α) (h : (k == k2) = false) :
    mapGet (m ++ [(k, v)]) k2 = mapGet m k2 := by
  induction m with
  | nil =>
      rw [List.nil_append, mapGet_cons_neg _ _ _ h]
  | cons a as ih =>
      cases hb : (a.1 == k2) with
      | true =>
          rw [List.cons_append, mapGet_cons_pos _ _ _ hb,
            mapGet_cons_pos _ _ _ hb]
      | false =>
          rw [List.cons_append, mapGet_cons_neg _ _ _ hb,
            mapGet_cons_neg _ _ _ hb]
          exact ih

theorem mapGet_map_replace_self {α : Type} (m : List (String × α))
    (k : String) (v : α) (h : mapGet m k ≠ none) :
    mapGet (m.map (fun e => if e.1 == k then (k, v) else e)) k = some v := by
  induction m with
  | nil => simp [mapGet] at h
  | cons a as ih =>
      rw [List.map_cons]
      cases hb : (a.1 == k) with
      | true =>
          rw [if_pos rfl]
          have : ((k, v).1 == k) = true := by simp
          simpa using mapGet_cons_pos (k, v) _ k this
      | false =>
          rw [if_neg (by simp)]
          rw [mapGet_cons_neg _ _ _ hb]
          rw [mapGet_cons_neg _ _ _ hb] at h
          exact ih h

theorem mapGet_map_replace_ne {α : Type} (m : List (String × α))
    (k k2 : String) (v : α) (h : (k == k2) = false) :
    mapGet (m.map (fun e => if e.1 == k then (k, v) else e)) k2 =
      mapGet m k2 := by
  induction m with
  | nil => rfl
  | cons a as ih =>
      rw [List.map_cons]
      cases hb : (a.1 == k) with
      | true =>
          rw [if_pos rfl]
          have hak : a.1 = k := by simpa using hb
          have ha2 : (a.1 == k2) = false := by rw [hak]; exact h
          rw [mapGet_cons_neg ((k, v)) _ _ h, mapGet_cons_neg _ _ _ ha2]
          exact ih
      | false =>
          rw [if_neg (by simp)]
          cases hc : (a.1 == k2) with
          | true =>
              rw [mapGet_cons_pos _ _ _ hc, mapGet_cons_pos _ _ _ hc]
          | false =>
              rw [mapGet_cons_neg _ _ _ hc, mapGet_cons_neg _ _ _ hc]
              exact ih

theorem mapGet_mapSet_self {α : Type} (m : List (String × α)) (k : String)
    (v : α) : mapGet (mapSet m k v) k = some v := by
  unfold mapSet
  cases hf : List.find? (fun e => e.1 == k) m with
  | none =>
      have hm : mapGet m k = none := by
        unfold mapGet; rw [hf]; rfl
      simpa using mapGet_append_single m k v hm
  | some e0 =>
      have hm : mapGet m k ≠ none := by
        unfold mapGet; rw [hf]; simp
      simpa using mapGet_map_replace_self m k v hm

theorem mapGet_mapDelete_self {α : Type} (m : List (String × α))
    (k : String) : mapGet (mapDelete m k) k = none := by
  induction m with
  | nil => rfl
  | cons a as ih =>
      unfold mapDelete
      rw [List.filter_cons]
      cases hb : (a.1 == k) with
      | true =>
          simp only [hb, Bool.not_true, Bool.false_eq_true, if_false]
          exact ih
      | false =>
          simp only [hb, Bool.not_false, if_true]
          rw [mapGet_cons_neg _ _ _ hb]
          exact ih

theorem mapGet_mapSet_ne {α : Type} (m : List (String × α)) (k k2 : String)
    (v : α) (hne : k2 ≠ k) : mapGet (mapSet m k v) k2 = mapGet m k2 := by
  have h : (k == k2) = false := by
    simp
    exact fun hc => hne hc.symm
  unfold mapSet
  cases hf : List.find? (fun e => e.1 == k) m with
  | none =>
      simpa using mapGet_append_single_ne m k k2 v h
  | some e0 =>
      simpa using mapGet_map_replace_ne m k k2 v h

/-! ## Helper lemmas about the rotator -/

theorem foldl_availableStep_nil (now : Nat) (l : List Account) :
    ∀ acc : List Account,
      l.foldl (availableStep now) (acc, []) = (acc ++ l, []) := by
  induction l with
  | nil => intro acc; simp
  | cons a as ih =>
      intro acc
      rw [List.foldl_cons]
      have hstep : availableStep now (acc, ([] : List (String × Nat))) a
          = (acc ++ [a], []) := rfl
      rw [hstep, ih]
      simp

theorem getAvailableAccounts_no_limits (s : RotatorState) (now : Nat)
    (hrl : s.rateLimits = []) :
    getAvailableAccounts s now = (s.accounts, []) := by
  unfold getAvailableAccounts
  rw [hrl]
  simpa using foldl_availableStep_nil now s.accounts []

theorem foldl_availableStep_limited (now : Nat) (l : List Account) :
    ∀ (acc : List Account) (rl : List (String × Nat)),
      (∀ a ∈ l, ∃ t, mapGet rl a.id = some t ∧ now < t) →
      l.foldl (availableStep now) (acc, rl) = (acc, rl) := by
  induction l with
  | nil => intro acc rl _; rfl
  | cons a as ih =>
      intro acc rl h
      obtain ⟨t, ht, hlt⟩ := h a (List.mem_cons_self a as)
      rw [List.foldl_cons]
      have hstep : availableStep now (acc, rl) a = (acc, rl) := by
        simp only [availableStep, ht]
        rw [if_neg (by omega)]
      rw [hstep]
      exact ih acc rl (fun b hb => h b (List.mem_cons_of_mem a hb))

theorem getAvailableAccounts_all_limited (s : RotatorState) (now : Nat)
    (h : ∀ a ∈ s.accounts, ∃ t, mapGet s.rateLimits a.id = some t ∧ now < t) :
    getAvailableAccounts s now = ([], s.rateLimits) := by
  unfold getAvailableAccounts
  exact foldl_availableStep_limited now s.accounts [] s.rateLimits h

theorem getNextAccount_all_limited (s : RotatorState) (now : Nat)
    (h : ∀ a ∈ s.accounts, ∃ t, mapGet s.rateLimits a.id = some t ∧ now < t) :
    getNextAccount s now =
      (.error (.rateLimitErr "All accounts are currently rate limited"
          (getEarliestRetryTime s.rateLimits now)), s) := by
  unfold getNextAccount
  rw [getAvailableAccounts_all_limited s now h]
  rfl

theorem contains_id_of_mem (l : List Account) (a : Account) (h : a ∈ l) :
    (l.map (fun b => b.id)).contains a.id = true := by
  have : a.id ∈ l.map (fun b => b.id) := List.mem_map_of_mem _ h
  exact List.elem_eq_true_of_mem this

theorem scanRoundRobin_hit (allAccounts : List Account) (ids : List String)
    (cursor attempts : Nat) (hlen : 0 < allAccounts.length)
    (hmem : ∀ a ∈ allAccounts, ids.contains a.id = true) :
    scanRoundRobin allAccounts ids cursor (attempts + 1) =
      (some (allAccounts.get ⟨cursor % allAccounts.length,
          Nat.mod_lt _ hlen⟩, (cursor + 1) % allAccounts.length),
        (cursor + 1) % allAccounts.length) := by
  have hidx : cursor % allAccounts.length < allAccounts.length :=
    Nat.mod_lt _ hlen
  have hget : allAccounts[cursor % allAccounts.length]? =
      some (allAccounts.get ⟨cursor % allAccounts.length, hidx⟩) := by
    rw [List.getElem?_eq_getElem hidx]
    simp
  have hmem2 : ids.contains (allAccounts.get
      ⟨cursor % allAccounts.length, hidx⟩).id = true :=
    hmem _ (List.get_mem allAccounts _ hidx)
  unfold scanRoundRobin
  rw [hget]
  simp only [hmem2, if_true]

theorem getNextAccount_no_limits (s : RotatorState) (now : Nat)
    (hrl : s.rateLimits = []) (hne : s.accounts ≠ []) :
    getNextAccount s now =
      (.ok (s.accounts.get ⟨s.currentIndex % s.accounts.length,
          Nat.mod_lt _ (List.length_pos.mpr hne)⟩),
        { s with
            rateLimits := []
            currentIndex := (s.currentIndex + 1) % s.accounts.length }) := by
  have h0 : 0 < s.accounts.length := List.length_pos.mpr hne
  obtain ⟨n, hn⟩ : ∃ n, s.accounts.length = n + 1 :=
    ⟨s.accounts.length - 1, by omega⟩
  have havail : getAvailableAccounts s now = (s.accounts, []) :=
    getAvailableAccounts_no_limits s now hrl
  have hempty : s.accounts.isEmpty = false := by
    rw [List.isEmpty_eq_false]
    exact hne
  have hmem : ∀ a ∈ s.accounts,
      (s.accounts.map (fun b => b.id)).contains a.id = true :=
    fun a ha => contains_id_of_mem s.accounts a ha
  have hscan := scanRoundRobin_hit s.accounts
    (s.accounts.map (fun b => b.id)) s.currentIndex n h0 hmem
  unfold getNextAccount
  rw [havail]
  simp only [hempty, Bool.false_eq_true, if_false]
  rw [← hn] at hscan
  rw [hscan]

theorem getNextSeq_no_limits (now : Nat) :
    ∀ (k : Nat) (s : RotatorState), s.rateLimits = [] →
      s.currentIndex < s.accounts.length →
      s.currentIndex + k ≤ s.accounts.length →
      getNextSeq s now k =
        (((s.accounts.drop s.currentIndex).take k).map Except.ok,
          { s with
              rateLimits := []
              currentIndex := (s.currentIndex + k) % s.accounts.length }) := by
  intro k
  induction k with
  | zero =>
      intro s hrl hc _
      obtain ⟨accounts, rateLimits, c⟩ := s
      simp only at hrl hc
      subst hrl
      simp [getNextSeq, Nat.mod_eq_of_lt hc]
  | succ k ih =>
      intro s hrl hc hck
      obtain ⟨accounts, rateLimits, c⟩ := s
      simp only at hrl hc hck
      subst hrl
      have hne : accounts ≠ [] := by
        intro h
        rw [h] at hc
        simp at hc
      have hfirst := getNextAccount_no_limits
        ⟨accounts, [], c⟩ now rfl hne
      have hcmod : c % accounts.length = c := Nat.mod_eq_of_lt hc
      have hget : accounts.get ⟨c % accounts.length,
          Nat.mod_lt _ (List.length_pos.mpr hne)⟩ =
          accounts.get ⟨c, hc⟩ := by
        congr 1
        exact Fin.ext hcmod
      rw [hget] at hfirst
      show (let r := getNextAccount ⟨accounts, [], c⟩ now
            let rest := getNextSeq r.2 now k
            (r.1 :: rest.1, rest.2)) = _
      rw [hfirst]
      simp only
      by_cases hlt : c + 1 < accounts.length
      · have hmod1 : (c + 1) % accounts.length = c + 1 :=
          Nat.mod_eq_of_lt hlt
        rw [hmod1]
        have hrest := ih ⟨accounts, [], c + 1⟩ rfl (by simpa using hlt)
          (by simp only; omega)
        simp only at hrest
        rw [hrest]
        simp only [Prod.mk.injEq, RotatorState.mk.injEq, true_and]
        refine ⟨?_, ?_⟩
        · rw [List.drop_eq_getElem_cons hc, List.take_succ_cons,
            List.map_cons, List.get_eq_getElem]
        · congr 1
          omega
      · have hceq : c + 1 = accounts.length := by omega
        have hk0 : k = 0 := by omega
        subst hk0
        simp only [getNextSeq, Prod.mk.injEq, RotatorState.mk.injEq, true_and]
        refine ⟨?_, ?_⟩
        · rw [List.drop_eq_getElem_cons hc, List.take_succ_cons,
            List.take_zero, List.map_cons, List.map_nil, List.get_eq_getElem]
        · trivial

/-! ## Helper lemmas about the extended-family endpoint loop -/

theorem antigravityEndpointLoop_all_429 (pj : String → Option SSEData) :
    ∀ (outs : List EndpointOutcome) (c ms : Nat),
      (∀ o ∈ outs, is429 o = true) →
      ∃ ms2, antigravityEndpointLoop pj c ms outs =
        .exhausted (c + outs.length) ms2 := by
  intro outs
  induction outs with
  | nil =>
      intro c ms _
      exact ⟨ms, by simp [antigravityEndpointLoop]⟩
  | cons o rest ih =>
      intro c ms h
      have ho : is429 o = true := h o (List.mem_cons_self o rest)
      cases o with
      | netErr m => simp [is429] at ho
      | http status ra et bl =>
          have hs : status = 429 := by
            simpa [is429] using ho
          subst hs
          simp only [antigravityEndpointLoop, List.length_cons, if_pos rfl]
          have harith : c + (rest.length + 1) = c + 1 + rest.length := by
            omega
          rw [harith]
          exact ih (c + 1) _ (fun o hm => h o (List.mem_cons_of_mem _ hm))

theorem antigravityEndpointLoop_exhausted_count (pj : String → Option SSEData) :
    ∀ (outs : List EndpointOutcome) (c ms c2 ms2 : Nat),
      antigravityEndpointLoop pj c ms outs = .exhausted c2 ms2 →
      c2 ≤ c + outs.length ∧
        (c2 = c + outs.length → ∀ o ∈ outs, is429 o = true) := by
  intro outs
  induction outs with
  | nil =>
      intro c ms c2 ms2 heq
      unfold antigravityEndpointLoop at heq
      cases heq
      exact ⟨by omega, fun _ o ho => absurd ho (List.not_mem_nil o)⟩
  | cons o rest ih =>
      intro c ms c2 ms2 heq
      cases o with
      | netErr m =>
          have heq2 : antigravityEndpointLoop pj c ms rest =
              .exhausted c2 ms2 := heq
          obtain ⟨hb, _⟩ := ih c ms c2 ms2 heq2
          refine ⟨by simp only [List.length_cons]; omega, ?_⟩
          intro hceq
          exfalso
          simp only [List.length_cons] at hceq
          omega
      | http status ra et bl =>
          simp only [antigravityEndpointLoop] at heq
          split at heq
          · rename_i h429
            subst h429
            obtain ⟨hb, hall⟩ := ih _ _ c2 ms2 heq
            constructor
            · simp only [List.length_cons]
              omega
            · intro hceq o ho
              rcases List.mem_cons.mp ho with h1 | h2
              · subst h1
                simp [is429]
              · refine hall ?_ o h2
                simp only [List.length_cons] at hceq
                omega
          · split at heq
            · obtain ⟨hb, _⟩ := ih _ _ c2 ms2 heq
              refine ⟨by simp only [List.length_cons]; omega, ?_⟩
              intro hceq
              exfalso
              simp only [List.length_cons] at hceq
              omega
            · split at heq
              · cases heq
              · split at heq
                · cases heq
                · cases heq

/-! ## Helper lemmas about the standard dispatch loop -/

theorem callStandardApiLoop_success_iter (now : Nat) (st : DispatchState)
    (account : Account) (rot : RotatorState) (tok : String)
    (data : GeminiResponseData) (text : String) (rest : List StdIter)
    (retryCount : Nat) (lastError : Option String) (delays : List Nat)
    (hnext : getNextAccount st.rotator now = (.ok account, rot))
    (hrc : retryCount ≤ MAX_RETRIES)
    (hex : extractStandardResponseText data = .ok text) :
    callStandardApiLoop now st retryCount lastError delays
      ({ token := .ok tok, fetch := .http 200 none data } :: rest) =
    (.success text,
      { rotator := rot, quota := incrementUsage st.quota account.id },
      delays) := by
  have hhead : stdLoopHead now st retryCount lastError delays =
      .ok (account, { st with rotator := rot }) := by
    unfold stdLoopHead
    rw [if_neg (by omega), hnext]
  unfold callStandardApiLoop
  rw [hhead]
  simp only [if_neg (by decide : ¬ (200 = 429))]
  rw [hex]
  rfl

/-! ## Claim theorems -/

/-- C2: each network failure or 5xx response consumes one unit of the
3-retry budget (at most 4 attempts), the delay before retry k is
1000 * 2 ^ (k - 1) milliseconds (1s, 2s, 4s), and exhausting the budget
raises an API-kind error wrapping the message of the last failure. Stated on
the embedded callStandardApi loop: four network failures yield the wrapping
ApiError with observed delays [1000, 2000, 4000]; three failures followed by
a success still succeed after those same three backoffs; four 5xx responses
also exhaust the budget after the same delays and raise an ApiError wrapping
the last body message. -/
theorem C2_transient_retry_policy (now : Nat) (m1 m2 m3 m4 : String) :
    (callStandardApiLoop now stdState1 0 none []
        [iterNet m1, iterNet m2, iterNet m3, iterNet m4] =
      (.failure (.apiErr ("Request failed after 3 retries: " ++ m4)),
        stdState1, [1000, 2000, 4000])) ∧
    (callStandardApiLoop now stdState1 0 none []
        [iterNet m1, iterNet m2, iterNet m3, iterOk "Response"] =
      (.success "Response", stdState1, [1000, 2000, 4000])) ∧
    (callStandardApiLoop now stdState1 0 none []
        [iter5xx m1, iter5xx m2, iter5xx m3, iter5xx m4] =
      (.failure (.apiErr ("API error: " ++ m4)),
        stdState1, [1000, 2000, 4000])) ∧
    (getBackoffDelay 1 = 1000 ∧ getBackoffDelay 2 = 2000 ∧
      getBackoffDelay 3 = 4000) :=
  ⟨rfl, rfl, rfl, rfl, rfl, rfl⟩

/-- C6 (code bug): an AuthenticationError raised while obtaining the access
token is matched by neither instanceof RateLimitError nor instanceof
ApiError in the dispatch catch block, so instead of being surfaced
immediately it is treated as a network failure: the retry counter is
consumed, the three backoff delays run, and after the budget is exhausted the
caller receives a generic ApiError wrapping the auth message, not the
authentication error itself. -/
theorem C6_auth_error_retried (now : Nat) (m : String) :
    ((JsError.authErr m).isRateLimitOrApi = false) ∧
    (callStandardApiLoop now stdState1 0 none []
        [iterAuthFail m, iterAuthFail m, iterAuthFail m, iterAuthFail m] =
      (.failure (.apiErr ("Request failed after 3 retries: " ++ m)),
        stdState1, [1000, 2000, 4000])) :=
  ⟨rfl, rfl⟩

/-- C7 counterexample: on a response whose first candidate holds the two
non-empty text parts a and b, the standard extraction returns only the first
part text a, not the concatenation ab claimed by the spec. -/
theorem C7_counterexample :
    extractStandardResponseText twoPartBody = .ok "a" ∧
    (Except.ok "a" : Except JsError String) ≠ .ok ("a" ++ "b") :=
  ⟨rfl, fun h => absurd (Except.ok.inj h) (by decide)⟩

/-- C7 (amended): on success the standard dispatcher increments the serving
account quota and returns ONLY the text of the first part of the first
candidate (raising an empty-response error when that text is missing or
empty, regardless of later parts); the antigravity transform helper, by
contrast, concatenates every non-empty part text of the first candidate. -/
theorem C7_success_returns_first_part (t1 : String) (ht : t1 ≠ "")
    (restParts : List ResponsePart) (restCands : List ResponseCandidate)
    (em : Option String) (now : Nat)
    (parts : List ResponsePart)
    (hsome : truthyTexts parts ≠ []) :
    (extractStandardResponseText (firstPartBody t1 restParts restCands em) =
      .ok t1) ∧
    (∀ data text, extractStandardResponseText data = .ok text →
      callStandardApiLoop now quotaState1 0 none []
        [{ token := .ok "tok", fetch := .http 200 none data }] =
      (.success text, quotaIncState1, [])) ∧
    (transformFromAntigravity (candsWithParts parts restCands) =
      .ok (String.join (truthyTexts parts))) := by
  refine ⟨?_, ?_, ?_⟩
  · simp only [firstPartBody, extractStandardResponseText]
    rw [if_neg ht]
  · intro data text hex
    have h1 := callStandardApiLoop_success_iter now quotaState1
      (mkAccount "a1" none) quotaState1.rotator "tok" data text [] 0 none []
      rfl (by decide) hex
    rw [h1]
    rfl
  · have hne : parts ≠ [] := by
      intro h
      rw [h] at hsome
      exact hsome rfl
    cases parts with
    | nil => exact absurd rfl hne
    | cons p ps =>
        simp only [candsWithParts, transformFromAntigravity]
        rw [if_neg (by simpa using hsome)]

/-- C7 witness. -/
theorem C7_success_returns_first_part_witness :
    ("a" : String) ≠ "" ∧
    truthyTexts [({ text := some "a" } : ResponsePart),
      { text := some "b" }] ≠ [] ∧
    (extractStandardResponseText
      (firstPartBody "a" [{ text := some "b" }] [] none) = .ok "a") ∧
    (transformFromAntigravity
      (candsWithParts
        [({ text := some "a" } : ResponsePart), { text := some "b" }] []) =
      .ok (String.join (truthyTexts
        [({ text := some "a" } : ResponsePart), { text := some "b" }]))) := by
  have h := C7_success_returns_first_part "a" (by decide)
    [{ text := some "b" }] [] none 0
    [({ text := some "a" } : ResponsePart), { text := some "b" }]
    (by decide)
  exact ⟨by decide, by decide, h.1, h.2.2⟩

/-- C8: a token is treated as expired exactly when now + 5 minutes is at or
past its absolute expiry. Consequently on getAccessToken a token expiring 4
minutes from now is rejected from the cache AND from the stored account
record and routes to refreshToken, while a token expiring 10 minutes from
now is served from the in-memory cache, or, on a cache miss, from the stored
record. -/
theorem C8_token_expiry_buffer (now expiresAt : Nat) (tok : String)
    (acct : Account) (htok : tok ≠ "") :
    (isExpired now expiresAt = true ↔ now + 5 * 60 * 1000 ≥ expiresAt) ∧
    (getAccessTokenPath
      (some { accessToken := tok, expiresAt := now + 4 * 60 * 1000 })
      (some (withToken acct tok (now + 4 * 60 * 1000))) now = .refresh) ∧
    (getAccessTokenPath
      (some { accessToken := tok, expiresAt := now + 10 * 60 * 1000 })
      (some acct) now = .cached tok) ∧
    (getAccessTokenPath none
      (some (withToken acct tok (now + 10 * 60 * 1000))) now =
      .stored tok) := by
  have h4 : isExpired now (now + 4 * 60 * 1000) = true := by
    simp only [isExpired, TOKEN_EXPIRY_BUFFER_MS, ge_iff_le,
      decide_eq_true_eq]
    omega
  have h10 : isExpired now (now + 10 * 60 * 1000) = false := by
    simp only [isExpired, TOKEN_EXPIRY_BUFFER_MS, ge_iff_le]
    rw [decide_eq_false_iff_not]
    omega
  refine ⟨?_, ?_, ?_, ?_⟩
  · simp only [isExpired, ge_iff_le, TOKEN_EXPIRY_BUFFER_MS,
      decide_eq_true_eq]
  · simp only [getAccessTokenPath, h4, Bool.not_true, Bool.false_eq_true,
      if_false, getAccessTokenPath.getAccessTokenStorePath, withToken]
    rw [if_neg]
    simp [h4]
  · simp only [getAccessTokenPath, h10, Bool.not_false, if_true]
  · simp only [getAccessTokenPath, getAccessTokenPath.getAccessTokenStorePath,
      withToken]
    rw [if_pos]
    exact ⟨htok, by omega, by simp [h10]⟩

/-- C8 witness. -/
theorem C8_token_expiry_buffer_witness :
    (("t" : String) ≠ "") ∧
    ((isExpired 0 123 = true ↔ 0 + 5 * 60 * 1000 ≥ 123) ∧
    (getAccessTokenPath
      (some { accessToken := "t", expiresAt := 0 + 4 * 60 * 1000 })
      (some (withToken (mkAccount "a1" none) "t" (0 + 4 * 60 * 1000))) 0 =
      .refresh) ∧
    (getAccessTokenPath
      (some { accessToken := "t", expiresAt := 0 + 10 * 60 * 1000 })
      (some (mkAccount "a1" none)) 0 = .cached "t") ∧
    (getAccessTokenPath none
      (some (withToken (mkAccount "a1" none) "t" (0 + 10 * 60 * 1000))) 0 =
      .stored "t")) :=
  ⟨by decide, C8_token_expiry_buffer 0 123 "t" (mkAccount "a1" none)
    (by decide)⟩

/-- C9: for an account known to the directory, updateQuota fully overwrites
the stored used/limit/resetAt triple, and getQuota then derives
percentage = used/limit*100 (100 when limit = 0) and
isLimited = (used >= limit); in particular update(a1, 80, 100) yields
percentage 80 and isLimited false, update(a1, 100, 100) yields isLimited
true, and update(a1, 0, 0) yields percentage 100 and isLimited true. -/
theorem C9_quota_arithmetic (directory : List Account) (s : QuotaState)
    (accountId : String) (used limit : ℚ) (resetAt : Option Nat)
    (account : Account)
    (hfind : directory.find? (fun a => a.id == accountId) = some account) :
    (mapGet (updateQuota directory s accountId used limit resetAt).quotas
        accountId = some { used := used, limit := limit, resetAt := resetAt }) ∧
    (getQuota directory (updateQuota directory s accountId used limit resetAt)
        accountId =
      some (buildQuotaInfo accountId account.email
        { used := used, limit := limit, resetAt := resetAt })) ∧
    ((buildQuotaInfo accountId account.email
        { used := used, limit := limit, resetAt := resetAt }).percentage =
      (if limit = 0 then 100 else used / limit * 100)) ∧
    ((buildQuotaInfo accountId account.email
        { used := used, limit := limit, resetAt := resetAt }).isLimited =
      decide (used ≥ limit)) ∧
    ((getQuota dir1 (updateQuota dir1 quota0 "a1" 80 100 none) "a1").map
        (fun i => (i.percentage, i.isLimited)) = some (80, false)) ∧
    ((getQuota dir1 (updateQuota dir1 quota0 "a1" 100 100 none) "a1").map
        (fun i => (i.percentage, i.isLimited)) = some (100, true)) ∧
    ((getQuota dir1 (updateQuota dir1 quota0 "a1" 0 0 none) "a1").map
        (fun i => (i.percentage, i.isLimited)) = some (100, true)) := by
  have key : ∀ (d : List Account) (s0 : QuotaState) (aid : String)
      (u l : ℚ) (r : Option Nat) (acct : Account),
      d.find? (fun a => a.id == aid) = some acct →
      mapGet (updateQuota d s0 aid u l r).quotas aid =
        some { used := u, limit := l, resetAt := r } ∧
      getQuota d (updateQuota d s0 aid u l r) aid =
        some (buildQuotaInfo aid acct.email
          { used := u, limit := l, resetAt := r }) := by
    intro d s0 aid u l r acct hf
    have hover : mapGet (updateQuota d s0 aid u l r).quotas aid =
        some { used := u, limit := l, resetAt := r } := by
      unfold updateQuota
      rw [hf]
      exact mapGet_mapSet_self _ _ _
    refine ⟨hover, ?_⟩
    unfold getQuota
    rw [hf, hover]
  have hfind1 : dir1.find? (fun a => a.id == "a1") =
      some (mkAccount "a1" none) := rfl
  obtain ⟨h1, h2⟩ := key directory s accountId used limit resetAt account hfind
  refine ⟨h1, h2, rfl, rfl, ?_, ?_, ?_⟩
  · rw [(key dir1 quota0 "a1" 80 100 none _ hfind1).2]
    simp only [Option.map_some, buildQuotaInfo, calculatePercentage,
      quotaLimited]
    norm_num
  · rw [(key dir1 quota0 "a1" 100 100 none _ hfind1).2]
    simp only [Option.map_some, buildQuotaInfo, calculatePercentage,
      quotaLimited]
    norm_num
  · rw [(key dir1 quota0 "a1" 0 0 none _ hfind1).2]
    simp only [Option.map_some, buildQuotaInfo, calculatePercentage,
      quotaLimited]
    norm_num

/-- C9 witness. -/
theorem C9_quota_arithmetic_witness :
    (dir1.find? (fun a => a.id == "a1") = some (mkAccount "a1" none)) ∧
    (mapGet (updateQuota dir1 quota0 "a1" 80 100 none).quotas "a1" =
      some { used := 80, limit := 100, resetAt := none }) ∧
    ((getQuota dir1 (updateQuota dir1 quota0 "a1" 80 100 none) "a1").map
      (fun i => (i.percentage, i.isLimited)) = some (80, false)) := by
  have h := C9_quota_arithmetic dir1 quota0 "a1" 80 100 none
    (mkAccount "a1" none) rfl
  exact ⟨rfl, h.1, h.2.2.2.2.1⟩

theorem callStandardApiLoop_marked_empty (now ms : Nat) (hms : 0 < ms) :
    callStandardApiLoop now (markedState now ms) 0 none [] [] =
      (.failure (.rateLimitErr "All accounts are currently rate limited" ms),
        markedState now ms, []) := by
  have hlim : ∀ a ∈ (markedState now ms).rotator.accounts, ∃ t,
      mapGet (markedState now ms).rotator.rateLimits a.id = some t ∧
        now < t := by
    intro a ha
    have : a = mkAccount "a1" none := by
      simpa [markedState] using ha
    subst this
    exact ⟨now + ms, rfl, by omega⟩
  have hnext := getNextAccount_all_limited (markedState now ms).rotator now
    hlim
  have hert : getEarliestRetryTime (markedState now ms).rotator.rateLimits
      now = ms := by
    simp only [markedState, getEarliestRetryTime, minList, List.map]
    omega
  rw [hert] at hnext
  have hhead : stdLoopHead now (markedState now ms) 0 none [] =
      .error (.failure (.rateLimitErr
          "All accounts are currently rate limited" ms),
        markedState now ms, []) := by
    unfold stdLoopHead
    rw [if_neg (by decide), hnext]
  unfold callStandardApiLoop
  rw [hhead]

/-- C3 counterexample: an extended-family attempt in which all three
candidate URLs answer 429 with Retry-After: 30. The dispatcher marks the
account for 60000 ms (the 60000 default maxed with the observed 30000), not
the 30 * 1000 the claim requires, and the attempt consumes a retry unit with
a 1000 ms backoff, where the claim requires account selection to be retried
without touching the network-error retry counter. -/
theorem C3_counterexample :
    callAntigravityApiLoop sseOracleX 0 2 antiState1 0 none []
        [{ token := .ok "t",
           endpoints := [ep429 (some 30), ep429 (some 30), ep429 (some 30)] }]
      = (.failure
            (.rateLimitErr "All accounts are currently rate limited" 60000),
          antiMarkedState 0 60000, [1000]) ∧
    (60000 ≠ 30 * 1000) :=
  ⟨rfl, by decide⟩

/-- C3 (amended): in the STANDARD family a 429 marks the serving account
with Retry-After * 1000 ms (60000 ms when the header is absent) and account
selection is retried immediately without consuming the network-error retry
budget (no backoff delay runs). In the EXTENDED family a single 429 only
tallies a counter; an attempt in which every candidate URL returned 429
marks the account with the maximum of 60000 and every observed
Retry-After * 1000, and that attempt then consumes one unit of the retry
budget with its backoff delay. -/
theorem C3_rate_limit_handling_amended (now : Nat) :
    (∀ s : Nat, 1 ≤ s →
      callStandardApiLoop now stdState1 0 none [] [iter429 (some s)] =
        (.failure (.rateLimitErr "All accounts are currently rate limited"
            (s * 1000)), markedState now (s * 1000), [])) ∧
    (callStandardApiLoop now stdState1 0 none [] [iter429 none] =
      (.failure (.rateLimitErr "All accounts are currently rate limited"
          60000), markedState now 60000, [])) ∧
    (callStandardApiLoop 7 stdState2 0 none []
        [iter429 (some 60), iterOk "Response"] =
      (.success "Response", marked2State, [])) ∧
    (∀ s1 s2 s3 : Nat,
      (callAntigravityApiLoop sseOracleX now 1 antiState1 0 none []
        [{ token := .ok "t",
           endpoints := [ep429 (some s1), ep429 (some s2),
             ep429 (some s3)] }]).2 =
      (antiMarkedState now
          (max (max (max 60000 (s1 * 1000)) (s2 * 1000)) (s3 * 1000)),
        [1000])) := by
  refine ⟨?_, ?_, rfl, ?_⟩
  · intro s hs
    have h1 : callStandardApiLoop now stdState1 0 none [] [iter429 (some s)]
        = callStandardApiLoop now (markedState now (s * 1000)) 0 none [] []
      := rfl
    rw [h1]
    exact callStandardApiLoop_marked_empty now (s * 1000) (by omega)
  · have h1 : callStandardApiLoop now stdState1 0 none [] [iter429 none]
        = callStandardApiLoop now (markedState now 60000) 0 none [] [] := rfl
    rw [h1]
    exact callStandardApiLoop_marked_empty now 60000 (by omega)
  · intro s1 s2 s3
    rfl

/-- C3 witness. -/
theorem C3_rate_limit_handling_amended_witness :
    (1 ≤ 60) ∧
    (callStandardApiLoop 0 stdState1 0 none [] [iter429 (some 60)] =
      (.failure (.rateLimitErr "All accounts are currently rate limited"
          (60 * 1000)), markedState 0 (60 * 1000), [])) :=
  ⟨by decide, (C3_rate_limit_handling_amended 0).1 60 (by decide)⟩

/-- C4: for one extended-family attempt over the three candidate URLs (one
outcome per URL, tried in order), the endpoint loop completes with the full
429 count — the condition under which the dispatcher marks the serving
account — exactly when every candidate returned 429; a 429 on one candidate
followed by a successful candidate returns the parsed text with the account
left unmarked; and an all-429 attempt does mark the account. -/
theorem C4_extended_all_429_rule (pj : String → Option SSEData)
    (outs : List EndpointOutcome)
    (hlen : outs.length = ANTIGRAVITY_API_BASE_URLS.length) :
    ((∃ ms2, antigravityEndpointLoop pj 0 DEFAULT_RATE_LIMIT_MS outs =
        .exhausted ANTIGRAVITY_API_BASE_URLS.length ms2) ↔
      ∀ o ∈ outs, is429 o = true) ∧
    (∀ (h : Option Nat) (x : EndpointOutcome) (now : Nat),
      callAntigravityApiLoop sseOracleX now 1 antiState1 0 none []
        [{ token := .ok "t", endpoints := [ep429 h, epOkX, x] }] =
      (.success "ok", antiState1, [])) ∧
    (∀ now : Nat,
      (callAntigravityApiLoop sseOracleX now 1 antiState1 0 none []
        [{ token := .ok "t",
           endpoints :=
             [ep429 none, ep429 none,
               ep429 none] }]).2.1.rotator.rateLimits =
        [("b1", now + 60000)]) := by
  have hlen3 : outs.length = 3 := by
    simpa [ANTIGRAVITY_API_BASE_URLS] using hlen
  refine ⟨?_, ?_, ?_⟩
  · constructor
    · rintro ⟨ms2, heq⟩ o ho
      rw [show ANTIGRAVITY_API_BASE_URLS.length = 3 from rfl] at heq
      obtain ⟨_, hall⟩ := antigravityEndpointLoop_exhausted_count pj outs 0
        DEFAULT_RATE_LIMIT_MS 3 ms2 heq
      exact hall (by omega) o ho
    · intro hall
      obtain ⟨ms2, h⟩ := antigravityEndpointLoop_all_429 pj outs 0
        DEFAULT_RATE_LIMIT_MS hall
      refine ⟨ms2, ?_⟩
      rw [h, show ANTIGRAVITY_API_BASE_URLS.length = 3 from rfl]
      congr 1
      omega
  · intro h x now
    rfl
  · intro now
    rfl

/-- C4 witness. -/
theorem C4_extended_all_429_rule_witness :
    (([ep429 none, ep429 none, ep429 none] : List EndpointOutcome).length =
      ANTIGRAVITY_API_BASE_URLS.length) ∧
    ((∃ ms2, antigravityEndpointLoop sseOracleX 0 DEFAULT_RATE_LIMIT_MS
        [ep429 none, ep429 none, ep429 none] =
        .exhausted ANTIGRAVITY_API_BASE_URLS.length ms2) ↔
      ∀ o ∈ ([ep429 none, ep429 none, ep429 none] : List EndpointOutcome),
        is429 o = true) :=
  ⟨rfl, (C4_extended_all_429_rule sseOracleX
    [ep429 none, ep429 none, ep429 none] rfl).1⟩

/-- C5 counterexample: with an empty account list but a stale rate-limit
entry for a removed account (markRateLimited honours marks for ids missing
from the directory), getNextAccount fails with retry hint 5000, not the 0
the claim requires for an empty account list. -/
theorem C5_counterexample :
    getNextAccount
        { accounts := [], rateLimits := [("ghost", 5000)], currentIndex := 0 }
        0 =
      (.error (.rateLimitErr "All accounts are currently rate limited" 5000),
        { accounts := [], rateLimits := [("ghost", 5000)],
          currentIndex := 0 }) ∧
    ((5000 : Nat) ≠ 0) :=
  ⟨rfl, by decide⟩

/-- C5 (amended): when no account is rate limited, N consecutive
getNextAccount calls from cursor 0 return the N accounts each exactly once
in list order and the following call wraps to the first; when every account
is limited, getNextAccount throws the all-accounts-limited error whose retry
hint is getEarliestRetryTime, i.e. the minimum availableAt over ALL
rate-limit map entries (including entries for accounts no longer in the
directory) minus now, clamped at 0, and 0 exactly when the rate-limit map
itself is empty. -/
theorem C5_rotator_next_amended (s : RotatorState) (now : Nat)
    (hrl : s.rateLimits = []) (hne : s.accounts ≠ [])
    (hc : s.currentIndex = 0)
    (slim : RotatorState) (nowl : Nat)
    (hlim : ∀ a ∈ slim.accounts,
      ∃ t, mapGet slim.rateLimits a.id = some t ∧ nowl < t) :
    ((getNextSeq s now s.accounts.length).1 = s.accounts.map Except.ok) ∧
    ((getNextAccount (getNextSeq s now s.accounts.length).2 now).1 =
      .ok (s.accounts.get ⟨0, List.length_pos.mpr hne⟩)) ∧
    (getNextAccount slim nowl =
      (.error (.rateLimitErr "All accounts are currently rate limited"
          (getEarliestRetryTime slim.rateLimits nowl)), slim)) ∧
    (∀ n : Nat, getEarliestRetryTime [] n = 0) := by
  obtain ⟨accounts, rateLimits, ci⟩ := s
  simp only at hrl hne hc
  subst hrl
  subst hc
  have h0 : 0 < accounts.length := List.length_pos.mpr hne
  have hseq := getNextSeq_no_limits now accounts.length
    ⟨accounts, [], 0⟩ rfl (by simpa using h0) (by simp)
  refine ⟨?_, ?_, getNextAccount_all_limited slim nowl hlim, fun n => rfl⟩
  · rw [hseq]
    simp
  · rw [hseq]
    simp only
    have hmod : (0 + accounts.length) % accounts.length = 0 := by
      simp
    rw [hmod]
    have hwrap := getNextAccount_no_limits ⟨accounts, [], 0⟩ now rfl hne
    rw [hwrap]
    simp only
    congr 1

/-- C5 witness. -/
theorem C5_rotator_next_amended_witness :
    (([mkAccount "a1" none, mkAccount "a2" none] : List Account) ≠ []) ∧
    ((getNextSeq ⟨[mkAccount "a1" none, mkAccount "a2" none], [], 0⟩ 0
        ([mkAccount "a1" none, mkAccount "a2" none] : List Account).length).1
      = ([mkAccount "a1" none, mkAccount "a2" none] : List Account).map
          Except.ok) ∧
    (getNextAccount ⟨[mkAccount "a1" none], [("a1", 10)], 0⟩ 0 =
      (.error (.rateLimitErr "All accounts are currently rate limited"
          (getEarliestRetryTime [("a1", 10)] 0)),
        ⟨[mkAccount "a1" none], [("a1", 10)], 0⟩)) := by
  have h := C5_rotator_next_amended
    ⟨[mkAccount "a1" none, mkAccount "a2" none], [], 0⟩ 0 rfl (by decide) rfl
    ⟨[mkAccount "a1" none], [("a1", 10)], 0⟩ 0
    (by
      intro a ha
      have : a = mkAccount "a1" none := by simpa using ha
      subst this
      exact ⟨10, rfl, by decide⟩)
  exact ⟨by decide, h.1, h.2.2.1⟩

/-- C10: for an extended-family call, if every account the rotator can
return has a missing projectId (and none is rate limited, so selection
always succeeds), each dispatch-loop iteration skips its account via
continue without consuming the environment trace, without a backoff delay,
without touching quota or rate-limit state, and without raising — for
every amount of fuel the loop is still running, i.e. the call never
terminates. -/
theorem C10_no_projectid_nontermination (pj : String → Option SSEData)
    (now : Nat) (trace : List AntiIter) (fuel : Nat) :
    ∀ (st : DispatchState) (retryCount : Nat) (lastError : Option String)
      (delays : List Nat),
      st.rotator.accounts ≠ [] →
      (∀ a ∈ st.rotator.accounts, a.projectId = none) →
      st.rotator.rateLimits = [] →
      retryCount ≤ MAX_RETRIES →
      (callAntigravityApiLoop pj now fuel st retryCount lastError delays
          trace).1 = .outOfTrace ∧
      (callAntigravityApiLoop pj now fuel st retryCount lastError delays
          trace).2.2 = delays ∧
      (callAntigravityApiLoop pj now fuel st retryCount lastError delays
          trace).2.1.quota = st.quota ∧
      (callAntigravityApiLoop pj now fuel st retryCount lastError delays
          trace).2.1.rotator.rateLimits = [] := by
  induction fuel with
  | zero =>
      intro st rc le d hne hpj hrl hrc
      exact ⟨rfl, rfl, rfl, hrl⟩
  | succ fuel ih =>
      intro st rc le d hne hpj hrl hrc
      have hnext := getNextAccount_no_limits st.rotator now hrl hne
      have hacc := hpj (st.rotator.accounts.get
        ⟨st.rotator.currentIndex % st.rotator.accounts.length,
          Nat.mod_lt _ (List.length_pos.mpr hne)⟩)
        (List.get_mem _ _ _)
      simp only [callAntigravityApiLoop, antigravityIteration,
        if_neg (show ¬ rc > MAX_RETRIES by omega), hnext, hacc]
      exact ih _ rc le d hne hpj rfl hrc

/-- C10 witness. -/
theorem C10_no_projectid_nontermination_witness :
    (([mkAccount "c1" none] : List Account) ≠ []) ∧
    ((callAntigravityApiLoop sseOracleX 0 50
        ⟨⟨[mkAccount "c1" none], [], 0⟩, ⟨[]⟩⟩ 0 none []
        [{ token := .ok "t", endpoints := [epOkX] }]).1 = .outOfTrace) := by
  have h := C10_no_projectid_nontermination sseOracleX 0
    [{ token := .ok "t", endpoints := [epOkX] }] 50
    ⟨⟨[mkAccount "c1" none], [], 0⟩, ⟨[]⟩⟩ 0 none []
    (by decide)
    (by
      intro a ha
      have : a = mkAccount "c1" none := by simpa using ha
      subst this
      rfl)
    rfl (by decide)
  exact ⟨by decide, h.1⟩

/-- C1: single-flight refresh. A getAccessToken caller that finds no
unexpired token in the cache or the stored record routes to refreshToken.
The entry of refreshToken (check refreshPromises, attach or insert) is
synchronous JS code with no await between lookup and insertion, hence one
atomic step per caller; over any interleaving of such steps: the first
caller for an account with no flight in progress starts exactly one
upstream refresh (one new started entry) and registers its promise; every
further caller for the same account while that flight is registered changes
nothing and receives the SAME flight handle — hence the same eventual
result, the resolution of that one flight; entries of other account ids are
untouched, so refreshes for different accounts proceed independently; and
the finally block clears the entry once the flight settles. -/
theorem C1_single_flight_refresh (s : FlightState)
    (accountId otherId : String) (cache : Option TokenCacheEntry)
    (acct : Account) (now : Nat)
    (hno : mapGet s.refreshPromises accountId = none)
    (hcache : ∀ e, cache = some e → isExpired now e.expiresAt = true)
    (hstored : ∀ expiry, acct.accessTokenExpiry = some expiry →
      isExpired now expiry = true)
    (hother : otherId ≠ accountId) :
    (getAccessTokenPath cache (some acct) now = .refresh) ∧
    ((refreshTokenEnter s accountId).1.started =
      s.started ++ [(s.nextFlight, accountId)]) ∧
    ((refreshTokenEnter s accountId).2 = s.nextFlight) ∧
    (refreshTokenEnter (refreshTokenEnter s accountId).1 accountId =
      ((refreshTokenEnter s accountId).1, s.nextFlight)) ∧
    (mapGet (refreshTokenEnter s accountId).1.refreshPromises otherId =
      mapGet s.refreshPromises otherId) ∧
    (mapGet (refreshTokenSettle (refreshTokenEnter s accountId).1
        accountId).refreshPromises accountId = none) := by
  have hstore : getAccessTokenPath.getAccessTokenStorePath (some acct) now =
      .refresh := by
    unfold getAccessTokenPath.getAccessTokenStorePath
    dsimp only
    cases hat : acct.accessToken with
    | none => rfl
    | some t =>
        cases hax : acct.accessTokenExpiry with
        | none => rfl
        | some e =>
            dsimp only
            rw [if_neg]
            rintro ⟨-, -, hb⟩
            rw [hstored e hax] at hb
            simp at hb
  have hpath : getAccessTokenPath cache (some acct) now = .refresh := by
    unfold getAccessTokenPath
    cases cache with
    | none => exact hstore
    | some entry =>
        dsimp only
        rw [hcache entry rfl]
        simpa using hstore
  have henter : refreshTokenEnter s accountId =
      ({ refreshPromises := mapSet s.refreshPromises accountId s.nextFlight,
         nextFlight := s.nextFlight + 1,
         started := s.started ++ [(s.nextFlight, accountId)] },
        s.nextFlight) := by
    unfold refreshTokenEnter
    rw [hno]
  refine ⟨hpath, ?_, ?_, ?_, ?_, ?_⟩
  · rw [henter]
  · rw [henter]
  · rw [henter]
    unfold refreshTokenEnter
    rw [mapGet_mapSet_self]
  · rw [henter]
    exact mapGet_mapSet_ne _ _ _ _ hother
  · rw [henter]
    exact mapGet_mapDelete_self _ _

/-- C1 witness. -/
theorem C1_single_flight_refresh_witness :
    (mapGet (⟨[], 0, []⟩ : FlightState).refreshPromises "a" = none) ∧
    (("b" : String) ≠ "a") ∧
    ((getAccessTokenPath none
        (some (withToken (mkAccount "a" none) "t" 1)) 0 = .refresh) ∧
      ((refreshTokenEnter ⟨[], 0, []⟩ "a").1.started = [] ++ [(0, "a")]) ∧
      ((refreshTokenEnter ⟨[], 0, []⟩ "a").2 = 0) ∧
      (refreshTokenEnter (refreshTokenEnter ⟨[], 0, []⟩ "a").1 "a" =
        ((refreshTokenEnter ⟨[], 0, []⟩ "a").1, 0)) ∧
      (mapGet (refreshTokenEnter ⟨[], 0, []⟩ "a").1.refreshPromises "b" =
        mapGet (⟨[], 0, []⟩ : FlightState).refreshPromises "b") ∧
      (mapGet (refreshTokenSettle (refreshTokenEnter ⟨[], 0, []⟩ "a").1
          "a").refreshPromises "a" = none)) :=
  ⟨rfl, by decide,
    C1_single_flight_refresh ⟨[], 0, []⟩ "a" "b" none
      (withToken (mkAccount "a" none) "t" 1) 0 rfl
      (by intro e h; cases h)
      (by intro expiry hx; cases hx; decide)
      (by decide)⟩

end GeminiOauthMcp
